import Mathlib

set_option maxHeartbeats 1000000

/-!
Verification of the client-side behavior implemented in
Seguros/Frontend/js/main.js: the contact-form validation and submission
flow, the mobile-menu state machine, the scroll-highlight computation and
the fade-in observer, modelled as pure functions over explicit state.
-/

namespace SegurosMain

/-- Whitespace characters matched by the script regular-expression class
and by trim (the JavaScript white-space set). -/
def isJsSpace (c : Char) : Bool :=
  c == ' ' || c == '\t' || c == '\n' || c == '\u000B' || c == '\u000C' || c == '\r' ||
  c == '\u00A0' || c == '\u1680' ||
  c == '\u2000' || c == '\u2001' || c == '\u2002' || c == '\u2003' ||
  c == '\u2004' || c == '\u2005' || c == '\u2006' || c == '\u2007' ||
  c == '\u2008' || c == '\u2009' || c == '\u200A' ||
  c == '\u2028' || c == '\u2029' || c == '\u202F' || c == '\u205F' ||
  c == '\u3000' || c == '\uFEFF'

/-- Leading and trailing whitespace removal, as value.trim() in the script. -/
def jsTrim (s : List Char) : List Char :=
  ((s.dropWhile isJsSpace).reverse.dropWhile isJsSpace).reverse

/-- Regular expressions over characters: empty language, empty word,
single character from a class, zero-or-more characters from a class,
concatenation and alternation.  This is exactly the fragment needed for
the anchored email pattern used by validateField. -/
inductive Reg where
  | emp : Reg
  | eps : Reg
  | cls : (Char → Bool) → Reg
  | many : (Char → Bool) → Reg
  | seq : Reg → Reg → Reg
  | alt : Reg → Reg → Reg

/-- Whether a regular expression accepts the empty word. -/
def Reg.nullable : Reg → Bool
  | .emp => false
  | .eps => true
  | .cls _ => false
  | .many _ => true
  | .seq a b => a.nullable && b.nullable
  | .alt a b => a.nullable || b.nullable

/-- Brzozowski derivative of a regular expression by one character. -/
def Reg.deriv : Reg → Char → Reg
  | .emp, _ => .emp
  | .eps, _ => .emp
  | .cls p, c => if p c then .eps else .emp
  | .many p, c => if p c then .many p else .emp
  | .seq a b, c =>
      if a.nullable then .alt (.seq (a.deriv c) b) (b.deriv c)
      else .seq (a.deriv c) b
  | .alt a b, c => .alt (a.deriv c) (b.deriv c)

/-- Executable whole-string matcher: fold the derivative over the input
and test nullability, which is the semantics of an anchored test. -/
def Reg.matchL (r : Reg) (s : List Char) : Bool :=
  (s.foldl Reg.deriv r).nullable

/-- Denotational language of a regular expression. -/
def Reg.Lang : Reg → List Char → Prop
  | .emp, _ => False
  | .eps, s => s = []
  | .cls p, s => ∃ c, s = [c] ∧ p c = true
  | .many p, s => ∀ c ∈ s, p c = true
  | .seq a b, s => ∃ u v, s = u ++ v ∧ a.Lang u ∧ b.Lang v
  | .alt a b, s => a.Lang s ∨ b.Lang s

/-- One-or-more repetition of a character class. -/
def plusC (p : Char → Bool) : Reg :=
  Reg.seq (Reg.cls p) (Reg.many p)

/-- The character class of the email pattern: anything that is neither
whitespace nor the at sign. -/
def emailChar (c : Char) : Bool :=
  !(isJsSpace c) && !(c == '@')

/-- The anchored email pattern of validateField, as a regular expression:
one or more emailChar, an at sign, one or more emailChar, a literal dot,
one or more emailChar. -/
def emailReg : Reg :=
  Reg.seq (plusC emailChar)
    (Reg.seq (Reg.cls (fun c => c == '@'))
      (Reg.seq (plusC emailChar)
        (Reg.seq (Reg.cls (fun c => c == '.')) (plusC emailChar))))

/-- The shape the specification describes for a valid email value: a
nonempty run of non-space non-at characters, an at sign, a nonempty run,
a dot, a nonempty run. -/
def EmailShape (s : List Char) : Prop :=
  ∃ a b c : List Char,
    a ≠ [] ∧ b ≠ [] ∧ c ≠ [] ∧
    (∀ ch ∈ a, emailChar ch = true) ∧
    (∀ ch ∈ b, emailChar ch = true) ∧
    (∀ ch ∈ c, emailChar ch = true) ∧
    s = a ++ '@' :: (b ++ '.' :: c)

/-- A form control: its name and id, whether it carries the required
attribute, its type attribute, its current and default values, and its
error-display state (red border class, hidden class of its error element,
error text). -/
structure FieldSt where
  name : String
  id : String
  required : Bool
  ftype : String
  value : List Char
  defaultValue : List Char
  borderRed : Bool
  errorHidden : Bool
  errorText : String
deriving DecidableEq, Repr

/-- Error message set by validateField for a missing required value. -/
def requiredErrMsg : String := "Este campo es obligatorio."

/-- Error message set by validateField for a malformed email value. -/
def emailErrMsg : String := "Por favor, introduzca un correo electrónico válido."

/-- validateField from main.js: clears previous error display, then flags
the field when it is required with a blank trimmed value, or when it is an
email field with a nonempty trimmed value that fails the email pattern.
Returns the updated field display state and the validity flag. -/
def validateField (f : FieldSt) : FieldSt × Bool :=
  let f0 : FieldSt := { f with borderRed := false, errorHidden := true }
  if f.required && (jsTrim f.value).isEmpty then
    ({ f0 with borderRed := true, errorHidden := false, errorText := requiredErrMsg }, false)
  else if f.ftype == "email" && !(jsTrim f.value).isEmpty
      && !(emailReg.matchL (jsTrim f.value)) then
    ({ f0 with borderRed := true, errorHidden := false, errorText := emailErrMsg }, false)
  else (f0, true)

/-- The selector input[required], textarea[required], input[type=email]:
a field is validated on submit when it is required or of type email. -/
def needsValidation (f : FieldSt) : Bool :=
  f.required || f.ftype == "email"

/-- Object.fromEntries single-key update: replace the value in place when
the key is present, otherwise append the pair. -/
def setKey (obj : List (String × List Char)) (k : String) (v : List Char) :
    List (String × List Char) :=
  if obj.any (fun p => p.1 == k) then
    obj.map (fun p => if p.1 == k then (k, v) else p)
  else obj ++ [(k, v)]

/-- Object.fromEntries over a list of entries: later entries overwrite
earlier ones, first occurrence fixes the position. -/
def fromEntries (entries : List (String × List Char)) : List (String × List Char) :=
  entries.foldl (fun o kv => setKey o kv.1 kv.2) []

/-- Result of await response.json(): either the body fails to parse as
JSON (the promise rejects) or it parses, with an optional message field. -/
inductive JsonBody where
  | parseError : JsonBody
  | parsed : Option String → JsonBody
deriving DecidableEq

/-- Outcome of the fetch call: transport failure (the fetch promise
rejects) or a completed HTTP response with ok status flag and body. -/
inductive NetOutcome where
  | netError : NetOutcome
  | response : Bool → JsonBody → NetOutcome
deriving DecidableEq

/-- The network request issued by the submit handler. -/
structure Request where
  url : String
  method : String
  contentType : String
  body : List (String × List Char)
deriving DecidableEq

/-- Observable state touched by the contact-form submit handler: the form
fields, the message element text and class, the message container role
attribute, and the submit button state. -/
structure FormUI where
  fields : List FieldSt
  msgText : String
  msgClass : String
  containerRole : Option String
  btnDisabled : Bool
  btnText : String
deriving DecidableEq

/-- The fixed endpoint of the POST request. -/
def contactEndpoint : String := "http://127.0.0.1:5001/api/contact"

/-- Aggregate message shown when client-side validation fails. -/
def invalidFormMsg : String := "Por favor, corrija los errores en el formulario."

/-- Transient processing message shown while the request is in flight. -/
def processingMsg : String := "Procesando su solicitud..."

/-- Transient submit-button label while the request is in flight. -/
def sendingLabel : String := "Enviando..."

/-- Default success message when the server supplies none. -/
def successDefaultMsg : String := "¡Mensaje enviado con éxito!"

/-- Default failure message when the server supplies none. -/
def failureDefaultMsg : String := "Error al enviar el mensaje. Inténtelo más tarde."

/-- Fixed connection-error message of the catch branch. -/
def connErrorMsg : String := "Error de conexión. Verifique su red o inténtelo más tarde."

/-- Class string used for failure and validation messages. -/
def redMsgClass : String := "text-center text-sm text-red-600 font-semibold"

/-- Class string used for the success message. -/
def greenMsgClass : String := "text-center text-sm text-green-600 font-semibold"

/-- Class string used for the processing message. -/
def skyMsgClass : String := "text-center text-sm text-sky-600"

/-- JavaScript truthiness fallback result.message || default: the default
is used when the message is absent or the empty string. -/
def jsOrElse (m : Option String) (d : String) : String :=
  match m with
  | some s => if s.isEmpty then d else s
  | none => d

/-- Removal of the error indicators of one field, as done in the success
branch loop over the validated fields. -/
def clearFieldError (f : FieldSt) : FieldSt :=
  { f with borderRed := false, errorHidden := true }

/-- The submit handler of setupContactForm, as a function from the
initial UI state and the network outcome to the final UI state and the
request issued (none when validation blocks the submission).  It mirrors
the source step by step: validate the selected fields, abort with the
aggregate alert if any failed; otherwise disable the button, show the
processing message, serialize the fields with Object.fromEntries, issue
the POST, dispatch on the outcome (connection-error banner when fetch or
response.json() rejects, success banner, reset and error clearing on an
ok response, failure banner otherwise), and finally re-enable the button
and restore its original label. -/
def handleSubmit (ui : FormUI) (net : NetOutcome) : FormUI × Option Request :=
  let validated := ui.fields.map (fun f => if needsValidation f then validateField f else (f, true))
  let fields1 := validated.map Prod.fst
  let formIsValid := validated.all Prod.snd
  let ui1 : FormUI := { ui with fields := fields1 }
  if formIsValid = false then
    ({ ui1 with msgText := invalidFormMsg, msgClass := redMsgClass,
                containerRole := some ("alert") }, none)
  else
    let originalButtonText := ui1.btnText
    let ui2 : FormUI := { ui1 with btnDisabled := true, btnText := sendingLabel,
                                   msgText := processingMsg, msgClass := skyMsgClass,
                                   containerRole := none }
    let dataToSend := fromEntries (ui2.fields.map (fun f => (f.name, f.value)))
    let req : Request := { url := contactEndpoint, method := "POST",
                           contentType := "application/json", body := dataToSend }
    let ui3 : FormUI :=
      match net with
      | NetOutcome.netError =>
          { ui2 with msgText := connErrorMsg, msgClass := redMsgClass,
                     containerRole := some ("alert") }
      | NetOutcome.response _ JsonBody.parseError =>
          { ui2 with msgText := connErrorMsg, msgClass := redMsgClass,
                     containerRole := some ("alert") }
      | NetOutcome.response ok (JsonBody.parsed msg) =>
          if ok then
            { ui2 with
                msgText := jsOrElse msg successDefaultMsg, msgClass := greenMsgClass,
                containerRole := some ("status"),
                fields := (ui2.fields.map (fun f => { f with value := f.defaultValue })).map
                  (fun f => if needsValidation f then clearFieldError f else f) }
          else
            { ui2 with msgText := jsOrElse msg failureDefaultMsg, msgClass := redMsgClass,
                       containerRole := some ("alert") }
    ({ ui3 with btnDisabled := false, btnText := originalButtonText }, some req)

/-- All fields selected for validation pass validateField. -/
def FormAllValid (ui : FormUI) : Prop :=
  ∀ f ∈ ui.fields, needsValidation f = true → (validateField f).2 = true

/-- The fixed connection-error banner: its text, its red styling and the
alert role on the container. -/
def ConnBanner (u : FormUI) : Prop :=
  u.msgText = connErrorMsg ∧ u.msgClass = redMsgClass ∧ u.containerRole = some ("alert")

/-- The request did not complete as a usable JSON response: either the
fetch rejected in transport or the body failed to parse as JSON. -/
def TransportOrParseFail (net : NetOutcome) : Prop :=
  net = NetOutcome.netError ∨ ∃ ok, net = NetOutcome.response ok JsonBody.parseError

/-- A parsed server message, after the truthiness fallback, never
coincides with the fixed connection-error text.  This rules out the
degenerate case of a server that echoes the banner text verbatim. -/
def ServerMsgDistinct (net : NetOutcome) : Prop :=
  ∀ ok msg, net = NetOutcome.response ok (JsonBody.parsed msg) →
    jsOrElse msg (if ok then successDefaultMsg else failureDefaultMsg) ≠ connErrorMsg

/-- State of the mobile menu: the aria-expanded attribute value of the
toggle button (an arbitrary string in the DOM), whether the panel carries
the hidden class, and whether the icon carries fa-bars and fa-times. -/
structure MenuState where
  ariaExpanded : String
  hidden : Bool
  faBars : Bool
  faTimes : Bool
deriving DecidableEq, Repr

/-- The click handler of the toggle button: read the expanded flag,
write its negation as a string, toggle the hidden class, and force
fa-bars to the old flag and fa-times to its negation. -/
def toggleMenu (s : MenuState) : MenuState :=
  let isExpanded := s.ariaExpanded == "true"
  { ariaExpanded := if isExpanded then "false" else "true",
    hidden := !s.hidden,
    faBars := isExpanded,
    faTimes := !isExpanded }

/-- The closed configuration written by both closing handlers: hidden
panel, aria-expanded false, hamburger icon. -/
def closeMenuState (s : MenuState) : MenuState :=
  { s with ariaExpanded := "false", hidden := true, faBars := true, faTimes := false }

/-- The click handler attached to each mobile-menu link: close the menu
when it is open, otherwise do nothing. -/
def menuLinkClick (s : MenuState) : MenuState :=
  if !s.hidden then closeMenuState s else s

/-- The mobile-menu close performed by the smooth-scroll click handler:
close when the panel is open and the clicked link is a mobile-menu link. -/
def smoothScrollMenuClose (s : MenuState) (isMobileLink : Bool) : MenuState :=
  if !s.hidden && isMobileLink then closeMenuState s else s

/-- The consistency invariant: aria-expanded is the string true exactly
when the panel lacks the hidden class, which holds exactly when the icon
carries fa-times and not fa-bars. -/
def MenuConsistent (s : MenuState) : Prop :=
  ((s.ariaExpanded = "true") ↔ s.hidden = false) ∧
  (s.hidden = false ↔ (s.faTimes = true ∧ s.faBars = false))

/-- The open configuration of the menu. -/
def openMenuState : MenuState :=
  { ariaExpanded := "true", hidden := false, faBars := false, faTimes := true }

/-- The closed configuration of the menu. -/
def closedMenuState : MenuState :=
  { ariaExpanded := "false", hidden := true, faBars := true, faTimes := false }

/-- The states the mobile menu actually assumes on the page: the closed
configuration of the initial markup and the open configuration, the two
values produced by every handler. -/
def MenuWellFormed (s : MenuState) : Prop :=
  s = openMenuState ∨ s = closedMenuState

/-- State of one fade-in section: whether it carries the is-visible class
and whether the observer still observes it. -/
structure FadeState where
  isVisible : Bool
  observed : Bool
deriving DecidableEq, Repr

/-- The intersection-observer callback for one delivered entry: when the
entry is intersecting, add the is-visible class and unobserve the target;
otherwise leave the state unchanged. -/
def fadeStep (s : FadeState) (isIntersecting : Bool) : FadeState :=
  if isIntersecting then { isVisible := true, observed := false } else s

/-- Initial state of a fade-in section: not visible, observed. -/
def fadeInitial : FadeState := { isVisible := false, observed := true }

/-- Folding the callback over a sequence of delivered entries. -/
def runFade (events : List Bool) (s : FadeState) : FadeState :=
  events.foldl fadeStep s

/-- The intersection threshold of the observer options. -/
def fadeThreshold : ℚ := 15 / 100

/-- A section participating in nav highlighting: its id attribute and its
offsetTop. -/
structure SectionInfo where
  id : String
  offsetTop : Int
deriving DecidableEq, Repr

/-- A navigation link: its href attribute and whether it carries the
nav-link-active class. -/
structure NavLink where
  href : String
  active : Bool
deriving DecidableEq, Repr

/-- The adjusted top offset of a section: offsetTop minus the navbar
height minus 60. -/
def sectionThreshold (navH : Int) (s : SectionInfo) : Int :=
  s.offsetTop - navH - 60

/-- The current-section computation of updateActiveState: fold over the
sections keeping the id of the last one whose adjusted top the scroll
position has reached; when none was kept and the first section is the
home section with the scroll above its unadjusted top, force the home id. -/
def computeCurrentId (navH : Int) (sections : List SectionInfo) (scrollPos : Int) : String :=
  let base := sections.foldl
    (fun acc s => if scrollPos ≥ sectionThreshold navH s then s.id else acc) ""
  match sections with
  | [] => base
  | s0 :: _ =>
      if base = "" ∧ s0.id = "inicio" ∧ scrollPos < s0.offsetTop then "inicio" else base

/-- Per-link update: remove the active class, then add it when the href
equals the hash of the current id. -/
def setActive (currentId : String) (l : NavLink) : NavLink :=
  { l with active := l.href == "#" ++ currentId }

/-- updateActiveState from main.js: compute the current section id and
rewrite the active class of every desktop and mobile nav link. -/
def updateActiveState (navH : Int) (sections : List SectionInfo) (scrollPos : Int)
    (desktopLinks mobileLinks : List NavLink) : List NavLink × List NavLink :=
  let currentId := computeCurrentId navH sections scrollPos
  (desktopLinks.map (setActive currentId), mobileLinks.map (setActive currentId))

/-- The last section in document order whose adjusted top offset the
scroll position has reached. -/
def lastQualifying (navH : Int) (sections : List SectionInfo) (scrollPos : Int) :
    Option SectionInfo :=
  (sections.filter (fun s => scrollPos ≥ sectionThreshold navH s)).getLast?

/-- Sample valid field used to instantiate the submit-flow theorems. -/
def sampleField : FieldSt :=
  { name := "nombre", id := "nombre", required := true, ftype := "text",
    value := ['H', 'o', 'l', 'a'], defaultValue := [], borderRed := false,
    errorHidden := true, errorText := "" }

/-- Sample email field used to instantiate the submit-flow theorems. -/
def sampleEmailField : FieldSt :=
  { name := "email", id := "email", required := true, ftype := "email",
    value := ['a', '@', 'b', '.', 'c', 'o', 'm'], defaultValue := [], borderRed := false,
    errorHidden := true, errorText := "" }

/-- Sample form state whose fields all pass validation. -/
def sampleUI : FormUI :=
  { fields := [sampleField, sampleEmailField], msgText := "", msgClass := "",
    containerRole := none, btnDisabled := false, btnText := "Enviar" }

/-- Sample form state with a blank required field. -/
def sampleInvalidUI : FormUI :=
  { fields := [{ sampleField with value := [' '] }], msgText := "", msgClass := "",
    containerRole := none, btnDisabled := false, btnText := "Enviar" }

/-- Sample sections used to instantiate the nav-highlight theorem. -/
def sampleSections : List SectionInfo :=
  [{ id := "inicio", offsetTop := 0 }, { id := "servicios", offsetTop := 500 }]

/-- Sample nav links used to instantiate the nav-highlight theorem. -/
def sampleLinks : List NavLink :=
  [{ href := "#inicio", active := true }, { href := "#servicios", active := false }]

/-! ## Regular-expression matcher correctness -/

theorem Reg.nullable_iff (r : Reg) : r.nullable = true ↔ r.Lang [] := by
  induction r with
  | emp => simp [Reg.nullable, Reg.Lang]
  | eps => simp [Reg.nullable, Reg.Lang]
  | cls p => simp [Reg.nullable, Reg.Lang]
  | many p => simp [Reg.nullable, Reg.Lang]
  | seq a b iha ihb =>
      simp only [Reg.nullable, Reg.Lang, Bool.and_eq_true, iha, ihb]
      constructor
      · rintro ⟨ha, hb⟩
        exact ⟨[], [], rfl, ha, hb⟩
      · rintro ⟨u, v, huv, hu, hv⟩
        rcases List.append_eq_nil.mp huv.symm with ⟨rfl, rfl⟩
        exact ⟨hu, hv⟩
  | alt a b iha ihb =>
      simp [Reg.nullable, Reg.Lang, iha, ihb]

theorem Reg.deriv_lang (r : Reg) (c : Char) (s : List Char) :
    (r.deriv c).Lang s ↔ r.Lang (c :: s) := by
  induction r generalizing s with
  | emp => simp [Reg.deriv, Reg.Lang]
  | eps => simp [Reg.deriv, Reg.Lang]
  | cls p =>
      by_cases h : p c = true
      · simp only [Reg.deriv, h, if_true, Reg.Lang]
        constructor
        · rintro rfl
          exact ⟨c, rfl, h⟩
        · rintro ⟨d, hd, _⟩
          cases hd
          rfl
      · simp only [Reg.deriv, h, if_false, Reg.Lang, false_iff]
        rintro ⟨d, hd, hpd⟩
        cases hd
        exact h hpd
  | many p =>
      by_cases h : p c = true
      · simp only [Reg.deriv, h, if_true, Reg.Lang]
        constructor
        · intro hall d hd
          rcases List.mem_cons.mp hd with rfl | hd
          · exact h
          · exact hall d hd
        · intro hall d hd
          exact hall d (List.mem_cons_of_mem _ hd)
      · simp only [Reg.deriv, h, if_false, Reg.Lang, false_iff]
        intro hall
        exact h (hall c (List.mem_cons_self c s))
  | seq a b iha ihb =>
      by_cases hn : a.nullable = true
      · simp only [Reg.deriv, hn, if_true, Reg.Lang, iha, ihb]
        constructor
        · rintro (⟨u, v, rfl, hu, hv⟩ | hbs)
          · exact ⟨c :: u, v, rfl, hu, hv⟩
          · exact ⟨[], c :: s, rfl, (Reg.nullable_iff a).mp hn, hbs⟩
        · rintro ⟨u, v, huv, hu, hv⟩
          cases u with
          | nil =>
              right
              cases huv
              exact hv
          | cons d u' =>
              left
              have hd : d = c := (List.cons_eq_cons.mp huv.symm).1
              have hs : s = u' ++ v := ((List.cons_eq_cons.mp huv.symm).2).symm
              subst hd
              exact ⟨u', v, hs, hu, hv⟩
      · have hn' : a.nullable = false := Bool.eq_false_iff.mpr hn
        simp only [Reg.deriv, hn', Bool.false_eq_true, if_false, Reg.Lang, iha]
        constructor
        · rintro ⟨u, v, rfl, hu, hv⟩
          exact ⟨c :: u, v, rfl, hu, hv⟩
        · rintro ⟨u, v, huv, hu, hv⟩
          cases u with
          | nil =>
              exact absurd ((Reg.nullable_iff a).mpr hu) hn
          | cons d u' =>
              have hd : d = c := (List.cons_eq_cons.mp huv.symm).1
              have hs : s = u' ++ v := ((List.cons_eq_cons.mp huv.symm).2).symm
              subst hd
              exact ⟨u', v, hs, hu, hv⟩
  | alt a b iha ihb =>
      simp [Reg.deriv, Reg.Lang, iha, ihb]

theorem Reg.matchL_iff (r : Reg) (s : List Char) :
    r.matchL s = true ↔ r.Lang s := by
  induction s generalizing r with
  | nil => exact Reg.nullable_iff r
  | cons c cs ih =>
      have hstep : r.matchL (c :: cs) = (r.deriv c).matchL cs := rfl
      rw [hstep, ih, Reg.deriv_lang]

theorem plusC_lang (p : Char → Bool) (s : List Char) :
    (plusC p).Lang s ↔ s ≠ [] ∧ ∀ c ∈ s, p c = true := by
  constructor
  · rintro ⟨u, v, huv, ⟨d, rfl, hd⟩, hv⟩
    subst huv
    refine ⟨by simp, ?_⟩
    intro c hc
    rcases List.mem_cons.mp hc with rfl | hc
    · exact hd
    · exact hv c hc
  · rintro ⟨hne, hall⟩
    cases s with
    | nil => exact absurd rfl hne
    | cons d rest =>
        exact ⟨[d], rest, rfl, ⟨d, rfl, hall d (List.mem_cons_self d rest)⟩,
          fun c hc => hall c (List.mem_cons_of_mem _ hc)⟩

theorem emailReg_lang (s : List Char) :
    emailReg.Lang s ↔ EmailShape s := by
  constructor
  · rintro ⟨a, rest1, rfl, ha, rest1L⟩
    rcases rest1L with ⟨w, rest2, rfl, ⟨cat, rfl, hat⟩, rest2L⟩
    rcases rest2L with ⟨b, rest3, rfl, hb, rest3L⟩
    rcases rest3L with ⟨d, cc, rfl, ⟨cdot, rfl, hdot⟩, hc⟩
    have hat' : cat = '@' := by
      have := of_decide_eq_true hat
      simpa using hat
    have hdot' : cdot = '.' := by
      simpa using hdot
    subst hat'
    subst hdot'
    rcases (plusC_lang emailChar a).mp ha with ⟨hane, haall⟩
    rcases (plusC_lang emailChar b).mp hb with ⟨hbne, hball⟩
    rcases (plusC_lang emailChar cc).mp hc with ⟨hcne, hcall⟩
    exact ⟨a, b, cc, hane, hbne, hcne, haall, hball, hcall, by simp⟩
  · rintro ⟨a, b, c, hane, hbne, hcne, haall, hball, hcall, rfl⟩
    refine ⟨a, '@' :: (b ++ '.' :: c), by simp, (plusC_lang emailChar a).mpr ⟨hane, haall⟩, ?_⟩
    refine ⟨['@'], b ++ '.' :: c, rfl, ⟨'@', rfl, by simp⟩, ?_⟩
    refine ⟨b, '.' :: c, rfl, (plusC_lang emailChar b).mpr ⟨hbne, hball⟩, ?_⟩
    exact ⟨['.'], c, rfl, ⟨'.', rfl, by simp⟩, (plusC_lang emailChar c).mpr ⟨hcne, hcall⟩⟩

theorem emailMatch_iff_shape (s : List Char) :
    emailReg.matchL s = true ↔ EmailShape s :=
  (Reg.matchL_iff emailReg s).trans (emailReg_lang s)

/-! ## validateField lemmas -/

theorem validateField_snd_eq (f : FieldSt) :
    (validateField f).2 =
      (!(f.required && (jsTrim f.value).isEmpty) &&
       !(f.ftype == "email" && !(jsTrim f.value).isEmpty
          && !(emailReg.matchL (jsTrim f.value)))) := by
  simp only [validateField]
  by_cases h1 : (f.required && (jsTrim f.value).isEmpty) = true
  · simp [h1]
  · have h1' : (f.required && (jsTrim f.value).isEmpty) = false := by
      simpa using h1
    by_cases h2 : (f.ftype == "email" && !(jsTrim f.value).isEmpty
        && !(emailReg.matchL (jsTrim f.value))) = true
    · simp [h1', h2]
    · have h2' : (f.ftype == "email" && !(jsTrim f.value).isEmpty
          && !(emailReg.matchL (jsTrim f.value))) = false := by
        simpa using h2
      simp [h1', h2']

theorem validateField_fst_proj (f : FieldSt) :
    (validateField f).1.name = f.name ∧ (validateField f).1.id = f.id ∧
    (validateField f).1.required = f.required ∧ (validateField f).1.ftype = f.ftype ∧
    (validateField f).1.value = f.value ∧ (validateField f).1.defaultValue = f.defaultValue := by
  simp only [validateField]
  split
  · exact ⟨rfl, rfl, rfl, rfl, rfl, rfl⟩
  · split
    · exact ⟨rfl, rfl, rfl, rfl, rfl, rfl⟩
    · exact ⟨rfl, rfl, rfl, rfl, rfl, rfl⟩

theorem needsValidation_validateField (f : FieldSt) :
    needsValidation (validateField f).1 = needsValidation f := by
  have h := validateField_fst_proj f
  simp [needsValidation, h.2.2.1, h.2.2.2.1]

/-- Claim C2: for every field of type email whose trimmed value is
nonempty, validateField accepts the field if and only if the trimmed
value decomposes as one or more non-space non-at characters, an at sign,
one or more non-space non-at characters, a dot, and one or more
non-space non-at characters. -/
theorem validateField_email_shape (f : FieldSt) (h1 : f.ftype = "email")
    (h2 : jsTrim f.value ≠ []) :
    (validateField f).2 = true ↔ EmailShape (jsTrim f.value) := by
  have hempty : (jsTrim f.value).isEmpty = false := by
    cases hE : jsTrim f.value with
    | nil => exact absurd hE h2
    | cons a l => rfl
  rw [validateField_snd_eq, ← emailMatch_iff_shape]
  simp [h1, hempty]

/-- Concrete instances of claim C2: the value a at b dot com is accepted,
while a at b (no dot in the domain) and a value with an inner space are
rejected. -/
theorem validateField_email_shape_inst :
    (validateField sampleEmailField).2 = true ∧
    (validateField { sampleEmailField with value := ['a', '@', 'b'] }).2 = false ∧
    (validateField
      { sampleEmailField with
          value := ['a', ' ', 'b', '@', 'c', '.', 'c', 'o', 'm'] }).2 = false := by
  refine ⟨?_, by decide, by decide⟩
  exact (validateField_email_shape sampleEmailField rfl (by decide)).mpr
    ⟨['a'], ['b'], ['c', 'o', 'm'], by decide, by decide, by decide,
      by decide, by decide, by decide, by decide⟩

/-- Claim C6: a required field is accepted exactly when its trimmed value
is nonempty and, in case it is an email field, matches the email pattern;
so a blank or whitespace-only value is always rejected, and any nonempty
trimmed value is accepted unless the field is a malformed email field. -/
theorem validateField_required_nonempty (f : FieldSt) (h : f.required = true) :
    (validateField f).2 = true ↔
      (jsTrim f.value ≠ [] ∧
        (f.ftype = "email" → emailReg.matchL (jsTrim f.value) = true)) := by
  rw [validateField_snd_eq]
  cases hE : (jsTrim f.value).isEmpty with
  | true =>
      have hnil : jsTrim f.value = [] := by
        cases hE2 : jsTrim f.value with
        | nil => rfl
        | cons a l => rw [hE2] at hE; exact absurd hE (by simp)
      simp [h, hE, hnil]
  | false =>
      have hne : jsTrim f.value ≠ [] := by
        intro hc
        rw [hc] at hE
        exact absurd hE (by simp)
      simp [h, hE, hne]
      by_cases hem : f.ftype = "email"
      · simp [hem]
      · have hem' : (f.ftype == "email") = false := by
          simpa using hem
        simp [hem, hem']

/-- Concrete instance of claim C6: a required text field with a nonempty
value is accepted. -/
theorem validateField_required_nonempty_inst :
    (validateField sampleField).2 = true :=
  (validateField_required_nonempty sampleField rfl).mpr
    ⟨by decide, fun hc => absurd hc (by decide)⟩

/-! ## Submit-handler lemmas -/

theorem validated_all_eq (fields : List FieldSt) :
    ((fields.map (fun f => if needsValidation f then validateField f else (f, true))).all
        Prod.snd = true)
      ↔ ∀ f ∈ fields, needsValidation f = true → (validateField f).2 = true := by
  rw [List.all_eq_true]
  constructor
  · intro h f hf hneed
    have h2 := h _ (List.mem_map_of_mem _ hf)
    simpa [hneed] using h2
  · intro h x hx
    rcases List.mem_map.mp hx with ⟨f, hf, rfl⟩
    by_cases hn : needsValidation f = true
    · simpa [hn] using h f hf hn
    · simp [hn]

theorem validatedFields_names (fields : List FieldSt) :
    (((fields.map (fun f => if needsValidation f then validateField f else (f, true))).map
        Prod.fst).map FieldSt.name) = fields.map FieldSt.name := by
  induction fields with
  | nil => rfl
  | cons f fs ih =>
      simp only [List.map_cons, List.cons.injEq]
      refine ⟨?_, ih⟩
      by_cases hn : needsValidation f = true
      · simp [hn, (validateField_fst_proj f).1]
      · simp [hn]

theorem setKey_keys (o : List (String × List Char)) (k' : String) (v : List Char)
    (k : String) :
    k ∈ (setKey o k' v).map Prod.fst ↔ k ∈ o.map Prod.fst ∨ k = k' := by
  unfold setKey
  by_cases h : o.any (fun p => p.1 == k') = true
  · rw [if_pos h]
    rw [List.map_map]
    constructor
    · intro hk
      rcases List.mem_map.mp hk with ⟨q, hq, hqk⟩
      by_cases hq' : (q.1 == k') = true
      · right
        simp only [Function.comp, hq', if_pos] at hqk
        exact hqk ▸ rfl
      · left
        have hq'' : (q.1 == k') = false := by simpa using hq'
        simp only [Function.comp, hq'', Bool.false_eq_true, if_false] at hqk
        exact List.mem_map.mpr ⟨q, hq, hqk⟩
    · rintro (hk | rfl)
      · rcases List.mem_map.mp hk with ⟨q, hq, rfl⟩
        refine List.mem_map.mpr ⟨q, hq, ?_⟩
        by_cases hq' : (q.1 == k') = true
        · simp only [Function.comp, hq', if_pos]
          exact (beq_iff_eq.mp hq').symm
        · have hq'' : (q.1 == k') = false := by simpa using hq'
          simp [Function.comp, hq'']
      · rcases List.any_eq_true.mp h with ⟨q, hq, hq'⟩
        refine List.mem_map.mpr ⟨q, hq, ?_⟩
        simp [Function.comp, hq']
  · rw [if_neg h]
    simp

theorem foldl_setKey_keys (entries : List (String × List Char))
    (o : List (String × List Char)) (k : String) :
    (k ∈ (entries.foldl (fun acc kv => setKey acc kv.1 kv.2) o).map Prod.fst) ↔
      k ∈ o.map Prod.fst ∨ k ∈ entries.map Prod.fst := by
  induction entries generalizing o with
  | nil => simp
  | cons e es ih =>
      rw [List.foldl_cons, ih, setKey_keys]
      simp only [List.map_cons, List.mem_cons]
      tauto

theorem fromEntries_keys (entries : List (String × List Char)) (k : String) :
    k ∈ (fromEntries entries).map Prod.fst ↔ k ∈ entries.map Prod.fst := by
  unfold fromEntries
  rw [foldl_setKey_keys]
  simp

theorem entries_fst (l : List FieldSt) :
    (l.map (fun f => (f.name, f.value))).map Prod.fst = l.map FieldSt.name := by
  rw [List.map_map]
  rfl

theorem handleSubmit_snd_of_valid (ui : FormUI) (net : NetOutcome)
    (h1 : ((ui.fields.map
        (fun f => if needsValidation f then validateField f else (f, true))).all
          Prod.snd) = true) :
    (handleSubmit ui net).2 = some
      { url := contactEndpoint, method := "POST", contentType := "application/json",
        body := fromEntries (((ui.fields.map
          (fun f => if needsValidation f then validateField f else (f, true))).map
            Prod.fst).map (fun f => (f.name, f.value))) } := by
  simp [handleSubmit, h1]

/-- Claim C1: on submit, a network request is issued if and only if every
required and email field passes validateField; when any fails, the
aggregate correction message is shown with the alert role and no request
is issued; when all pass, exactly one POST request to the fixed endpoint
is issued whose JSON body keys are exactly the field names of the form. -/
theorem handleSubmit_request_iff_valid (ui : FormUI) (net : NetOutcome) :
    ((handleSubmit ui net).2.isSome ↔ FormAllValid ui) ∧
    (¬ FormAllValid ui →
      (handleSubmit ui net).1.msgText = invalidFormMsg ∧
      (handleSubmit ui net).1.msgClass = redMsgClass ∧
      (handleSubmit ui net).1.containerRole = some ("alert") ∧
      (handleSubmit ui net).2 = none) ∧
    (FormAllValid ui → ∃ req, (handleSubmit ui net).2 = some req ∧
      req.url = contactEndpoint ∧ req.method = "POST" ∧
      req.contentType = "application/json" ∧
      (∀ k, k ∈ req.body.map Prod.fst ↔ k ∈ ui.fields.map FieldSt.name)) := by
  by_cases hvalid : FormAllValid ui
  · have h1 : ((ui.fields.map
        (fun f => if needsValidation f then validateField f else (f, true))).all
          Prod.snd) = true := (validated_all_eq ui.fields).mpr hvalid
    refine ⟨?_, fun hc => absurd hvalid hc, fun _ => ?_⟩
    · simp [handleSubmit, h1, hvalid]
    · refine ⟨_, handleSubmit_snd_of_valid ui net h1, rfl, rfl, rfl, ?_⟩
      intro k
      rw [fromEntries_keys, entries_fst]
      have hnames := validatedFields_names ui.fields
      rw [hnames]
  · have h1 : ((ui.fields.map
        (fun f => if needsValidation f then validateField f else (f, true))).all
          Prod.snd) = false := by
      have := (validated_all_eq ui.fields).not.mpr hvalid
      simpa using this
    refine ⟨?_, fun _ => ?_, fun hc => absurd hc hvalid⟩
    · simp [handleSubmit, h1, hvalid]
    · refine ⟨?_, ?_, ?_, ?_⟩ <;> simp [handleSubmit, h1]

/-- Concrete instance of claim C1: a form with a blank required field
shows the aggregate message and issues no request. -/
theorem handleSubmit_request_iff_valid_inst :
    (handleSubmit sampleInvalidUI NetOutcome.netError).1.msgText = invalidFormMsg ∧
    (handleSubmit sampleInvalidUI NetOutcome.netError).2 = none := by
  have T := handleSubmit_request_iff_valid sampleInvalidUI NetOutcome.netError
  have hinv : ¬ FormAllValid sampleInvalidUI := by
    unfold FormAllValid
    decide
  exact ⟨(T.2.1 hinv).1, (T.2.1 hinv).2.2.2⟩

theorem needsValidation_setValue (x : FieldSt) (v : List Char) :
    needsValidation { x with value := v } = needsValidation x := rfl

theorem validatedFields_values (fields : List FieldSt) :
    (((fields.map (fun f => if needsValidation f then validateField f else (f, true))).map
        Prod.fst).map FieldSt.value) = fields.map FieldSt.value := by
  induction fields with
  | nil => rfl
  | cons f fs ih =>
      simp only [List.map_cons, List.cons.injEq]
      refine ⟨?_, ih⟩
      by_cases hn : needsValidation f = true
      · simp [hn, (validateField_fst_proj f).2.2.2.2.1]
      · simp [hn]

theorem success_fields_values (l : List FieldSt) :
    (((((l.map (fun f => if needsValidation f then validateField f else (f, true))).map
        Prod.fst).map (fun f => { f with value := f.defaultValue })).map
        (fun f => if needsValidation f then clearFieldError f else f)).map FieldSt.value)
      = l.map FieldSt.defaultValue := by
  induction l with
  | nil => rfl
  | cons f fs ih =>
      simp only [List.map_cons, List.cons.injEq]
      refine ⟨?_, ih⟩
      by_cases hn : needsValidation f = true
      · simp only [needsValidation] at hn
        simp [needsValidation, hn, clearFieldError,
          (validateField_fst_proj f).2.2.1, (validateField_fst_proj f).2.2.2.1,
          (validateField_fst_proj f).2.2.2.2.2]
      · simp only [needsValidation] at hn
        have hn' : (f.required || f.ftype == "email") = false := by simpa using hn
        simp [needsValidation, hn', clearFieldError]

theorem success_fields_clear (l : List FieldSt)
    (hclean : ∀ f ∈ l, needsValidation f = false →
        (f.borderRed = false ∧ f.errorHidden = true)) :
    ∀ g ∈ ((((l.map (fun f => if needsValidation f then validateField f else (f, true))).map
        Prod.fst).map (fun f => { f with value := f.defaultValue })).map
        (fun f => if needsValidation f then clearFieldError f else f)),
      g.borderRed = false ∧ g.errorHidden = true := by
  induction l with
  | nil => intro g hg; simp at hg
  | cons f fs ih =>
      simp only [List.map_cons, List.forall_mem_cons]
      constructor
      · by_cases hn : needsValidation f = true
        · simp only [needsValidation] at hn
          simp [needsValidation, hn, clearFieldError,
            (validateField_fst_proj f).2.2.1, (validateField_fst_proj f).2.2.2.1]
        · have hcl := hclean f (List.mem_cons_self f fs) (by simpa using hn)
          simp only [needsValidation] at hn
          have hn' : (f.required || f.ftype == "email") = false := by simpa using hn
          simp [needsValidation, hn', clearFieldError]
          exact hcl
      · exact ih (fun g hg hng => hclean g (List.mem_cons_of_mem f hg) hng)

/-- Claim C4: when the submitted form is valid and the server answers
with an ok response, the success banner shows the server-supplied message
(or the default when it is absent), the container is tagged with the
status role, the form is reset to its default values, and every field is
left without error indicators (the hypothesis records that fields outside
the validated set never carry indicators on the page). -/
theorem handleSubmit_success_response (ui : FormUI) (msg : Option String)
    (hvalid : FormAllValid ui)
    (hclean : ∀ f ∈ ui.fields, needsValidation f = false →
        (f.borderRed = false ∧ f.errorHidden = true)) :
    (handleSubmit ui (NetOutcome.response true (JsonBody.parsed msg))).1.msgText
        = jsOrElse msg successDefaultMsg ∧
    (handleSubmit ui (NetOutcome.response true (JsonBody.parsed msg))).1.msgClass
        = greenMsgClass ∧
    (handleSubmit ui (NetOutcome.response true (JsonBody.parsed msg))).1.containerRole
        = some ("status") ∧
    ((handleSubmit ui (NetOutcome.response true (JsonBody.parsed msg))).1.fields.map
        FieldSt.value) = ui.fields.map FieldSt.defaultValue ∧
    (∀ f ∈ (handleSubmit ui (NetOutcome.response true (JsonBody.parsed msg))).1.fields,
        f.borderRed = false ∧ f.errorHidden = true) := by
  have h1 : ((ui.fields.map
      (fun f => if needsValidation f then validateField f else (f, true))).all
        Prod.snd) = true := (validated_all_eq ui.fields).mpr hvalid
  have hf : (handleSubmit ui (NetOutcome.response true (JsonBody.parsed msg))).1.fields
      = ((((ui.fields.map
          (fun f => if needsValidation f then validateField f else (f, true))).map
          Prod.fst).map (fun f => { f with value := f.defaultValue })).map
          (fun f => if needsValidation f then clearFieldError f else f)) := by
    simp [handleSubmit, h1]
  refine ⟨by simp [handleSubmit, h1], by simp [handleSubmit, h1],
    by simp [handleSubmit, h1], ?_, ?_⟩
  · rw [hf, success_fields_values]
  · rw [hf]
    exact success_fields_clear ui.fields hclean

/-- Concrete instance of claim C4: an ok response whose body carries the
message OK shows OK, tags the container with the status role and clears
the field values. -/
theorem handleSubmit_success_response_inst :
    (handleSubmit sampleUI (NetOutcome.response true (JsonBody.parsed (some ("OK"))))).1.msgText
        = "OK" ∧
    (handleSubmit sampleUI (NetOutcome.response true (JsonBody.parsed (some ("OK"))))).1.containerRole
        = some ("status") ∧
    ((handleSubmit sampleUI (NetOutcome.response true (JsonBody.parsed (some ("OK"))))).1.fields.map
        FieldSt.value) = sampleUI.fields.map FieldSt.defaultValue := by
  have hvalid : FormAllValid sampleUI := by
    unfold FormAllValid
    decide
  have T := handleSubmit_success_response sampleUI (some ("OK")) hvalid (by decide)
  exact ⟨T.1.trans (by decide), T.2.2.1, T.2.2.2.1⟩

/-- Claim C5: when the submitted form is valid and the server answers
with a non-ok response, the failure banner shows the server-supplied
message (or the default when it is absent), the container is tagged with
the alert role, and the form fields retain their entered values. -/
theorem handleSubmit_failure_response (ui : FormUI) (msg : Option String)
    (hvalid : FormAllValid ui) :
    (handleSubmit ui (NetOutcome.response false (JsonBody.parsed msg))).1.msgText
        = jsOrElse msg failureDefaultMsg ∧
    (handleSubmit ui (NetOutcome.response false (JsonBody.parsed msg))).1.msgClass
        = redMsgClass ∧
    (handleSubmit ui (NetOutcome.response false (JsonBody.parsed msg))).1.containerRole
        = some ("alert") ∧
    ((handleSubmit ui (NetOutcome.response false (JsonBody.parsed msg))).1.fields.map
        FieldSt.value) = ui.fields.map FieldSt.value := by
  have h1 : ((ui.fields.map
      (fun f => if needsValidation f then validateField f else (f, true))).all
        Prod.snd) = true := (validated_all_eq ui.fields).mpr hvalid
  have hf : (handleSubmit ui (NetOutcome.response false (JsonBody.parsed msg))).1.fields
      = ((ui.fields.map
          (fun f => if needsValidation f then validateField f else (f, true))).map
          Prod.fst) := by
    simp [handleSubmit, h1]
  refine ⟨by simp [handleSubmit, h1], by simp [handleSubmit, h1],
    by simp [handleSubmit, h1], ?_⟩
  rw [hf, validatedFields_values]

/-- Concrete instance of claim C5: a non-ok response whose body carries
the message Bad input shows that text and leaves the entered values in
place. -/
theorem handleSubmit_failure_response_inst :
    (handleSubmit sampleUI (NetOutcome.response false (JsonBody.parsed (some ("Bad input"))))).1.msgText
        = "Bad input" ∧
    (handleSubmit sampleUI (NetOutcome.response false (JsonBody.parsed (some ("Bad input"))))).1.containerRole
        = some ("alert") ∧
    ((handleSubmit sampleUI (NetOutcome.response false (JsonBody.parsed (some ("Bad input"))))).1.fields.map
        FieldSt.value) = sampleUI.fields.map FieldSt.value := by
  have hvalid : FormAllValid sampleUI := by
    unfold FormAllValid
    decide
  have T := handleSubmit_failure_response sampleUI (some ("Bad input")) hvalid
  exact ⟨T.1.trans (by decide), T.2.2.1, T.2.2.2⟩

/-- Counterexample to claim C3 as stated: for a valid form, a completed
HTTP response (here even an ok one) whose body fails to parse as JSON
also produces the fixed connection-error banner, although no transport
failure occurred, because the rejection of response.json() is caught by
the same catch block. -/
theorem connError_banner_on_parse_failure :
    (handleSubmit sampleUI (NetOutcome.response true JsonBody.parseError)).1.msgText
        = connErrorMsg ∧
    (handleSubmit sampleUI (NetOutcome.response true JsonBody.parseError)).1.msgClass
        = redMsgClass ∧
    (handleSubmit sampleUI (NetOutcome.response true JsonBody.parseError)).1.containerRole
        = some ("alert") ∧
    NetOutcome.response true JsonBody.parseError ≠ NetOutcome.netError := by
  refine ⟨by decide, by decide, by decide, by decide⟩

/-- Claim C3 (amended): the fixed connection-error banner appears exactly
when the request was actually issued (the form was valid) and either the
fetch rejected in transport or the response body failed to parse as
JSON; stated under the hypothesis that a parsed server message, after
the truthiness fallback, never equals the fixed banner text.  After any
such failure the submit control is re-enabled with its original label
restored. -/
theorem connError_banner_characterization (ui : FormUI) (net : NetOutcome)
    (hdist : ServerMsgDistinct net) :
    (ConnBanner (handleSubmit ui net).1 ↔ (FormAllValid ui ∧ TransportOrParseFail net)) ∧
    (FormAllValid ui → TransportOrParseFail net →
      (handleSubmit ui net).1.btnDisabled = false ∧
      (handleSubmit ui net).1.btnText = ui.btnText) := by
  by_cases hvalid : FormAllValid ui
  · have h1 : ((ui.fields.map
        (fun f => if needsValidation f then validateField f else (f, true))).all
          Prod.snd) = true := (validated_all_eq ui.fields).mpr hvalid
    cases net with
    | netError =>
        have hC : ConnBanner (handleSubmit ui NetOutcome.netError).1 := by
          unfold ConnBanner
          refine ⟨?_, ?_, ?_⟩ <;> simp [handleSubmit, h1]
        refine ⟨⟨fun _ => ⟨hvalid, Or.inl rfl⟩, fun _ => hC⟩, fun _ _ => ?_⟩
        constructor <;> simp [handleSubmit, h1]
    | response ok body =>
        cases body with
        | parseError =>
            have hC : ConnBanner
                (handleSubmit ui (NetOutcome.response ok JsonBody.parseError)).1 := by
              unfold ConnBanner
              refine ⟨?_, ?_, ?_⟩ <;> simp [handleSubmit, h1]
            refine ⟨⟨fun _ => ⟨hvalid, Or.inr ⟨ok, rfl⟩⟩, fun _ => hC⟩, fun _ _ => ?_⟩
            constructor <;> simp [handleSubmit, h1]
        | parsed msg =>
            have hmsg := hdist ok msg rfl
            have hnofail : ¬ TransportOrParseFail
                (NetOutcome.response ok (JsonBody.parsed msg)) := by
              rintro (heq | ⟨ok', heq⟩) <;> simp at heq
            refine ⟨⟨fun hB => ?_, fun hc => absurd hc.2 hnofail⟩,
              fun _ hc => absurd hc hnofail⟩
            exfalso
            unfold ConnBanner at hB
            cases ok with
            | false =>
                have ht : (handleSubmit ui
                    (NetOutcome.response false (JsonBody.parsed msg))).1.msgText
                      = jsOrElse msg failureDefaultMsg := by
                  simp [handleSubmit, h1]
                rw [ht] at hB
                simp only [if_neg, Bool.false_eq_true, if_false] at hmsg
                exact hmsg hB.1
            | true =>
                have hcl : (handleSubmit ui
                    (NetOutcome.response true (JsonBody.parsed msg))).1.msgClass
                      = greenMsgClass := by
                  simp [handleSubmit, h1]
                rw [hcl] at hB
                exact absurd hB.2.1 (by decide)
  · have h1 : ((ui.fields.map
        (fun f => if needsValidation f then validateField f else (f, true))).all
          Prod.snd) = false := by
      have := (validated_all_eq ui.fields).not.mpr hvalid
      simpa using this
    refine ⟨⟨fun hB => ?_, fun hc => absurd hc.1 hvalid⟩,
      fun hv => absurd hv hvalid⟩
    exfalso
    unfold ConnBanner at hB
    have ht : (handleSubmit ui net).1.msgText = invalidFormMsg := by
      simp [handleSubmit, h1]
    rw [ht] at hB
    exact absurd hB.1 (by decide)

/-- Concrete instance of the amended claim C3: a transport failure on a
valid form produces the connection banner and restores the button. -/
theorem connError_banner_characterization_inst :
    ConnBanner (handleSubmit sampleUI NetOutcome.netError).1 ∧
    (handleSubmit sampleUI NetOutcome.netError).1.btnDisabled = false ∧
    (handleSubmit sampleUI NetOutcome.netError).1.btnText = sampleUI.btnText := by
  have hdist : ServerMsgDistinct NetOutcome.netError := by
    intro ok msg h
    cases h
  have hvalid : FormAllValid sampleUI := by
    unfold FormAllValid
    decide
  have T := connError_banner_characterization sampleUI NetOutcome.netError hdist
  exact ⟨T.1.mpr ⟨hvalid, Or.inl rfl⟩, T.2 hvalid (Or.inl rfl)⟩

/-! ## Mobile-menu state machine -/

theorem closeMenuState_eq (s : MenuState) : closeMenuState s = closedMenuState := rfl

/-- Claim C8: every menu-mutating operation (toggle-button click, click
on a mobile-menu link, and the mobile-menu close performed by the
smooth-scroll click handler) preserves the invariant that aria-expanded
is the string true exactly when the panel lacks the hidden class, which
holds exactly when the icon carries fa-times and not fa-bars. -/
theorem menu_ops_preserve_invariant (s : MenuState) (b : Bool)
    (h : MenuConsistent s) :
    MenuConsistent (toggleMenu s) ∧ MenuConsistent (menuLinkClick s) ∧
    MenuConsistent (smoothScrollMenuClose s b) := by
  obtain ⟨h1, h2⟩ := h
  by_cases hh : s.hidden = false
  · have haria : s.ariaExpanded = "true" := h1.mpr hh
    have hbe : (s.ariaExpanded == "true") = true := beq_iff_eq.mpr haria
    refine ⟨?_, ?_, ?_⟩
    · have ht : toggleMenu s = closedMenuState := by
        simp [toggleMenu, hbe, hh, closedMenuState]
      rw [ht]
      unfold MenuConsistent
      decide
    · have hm : menuLinkClick s = closedMenuState := by
        simp [menuLinkClick, hh, closeMenuState_eq]
      rw [hm]
      unfold MenuConsistent
      decide
    · cases b with
      | false =>
          have hm : smoothScrollMenuClose s false = s := by
            simp [smoothScrollMenuClose]
          rw [hm]
          exact ⟨h1, h2⟩
      | true =>
          have hm : smoothScrollMenuClose s true = closedMenuState := by
            simp [smoothScrollMenuClose, hh, closeMenuState_eq]
          rw [hm]
          unfold MenuConsistent
          decide
  · have hh' : s.hidden = true := by
      cases hht : s.hidden with
      | false => exact absurd hht hh
      | true => rfl
    have haria : s.ariaExpanded ≠ "true" := fun hc => hh (h1.mp hc)
    have hbe : (s.ariaExpanded == "true") = false := beq_eq_false_iff_ne.mpr haria
    refine ⟨?_, ?_, ?_⟩
    · have ht : toggleMenu s = openMenuState := by
        simp [toggleMenu, hbe, hh', openMenuState]
      rw [ht]
      unfold MenuConsistent
      decide
    · have hm : menuLinkClick s = s := by
        simp [menuLinkClick, hh']
      rw [hm]
      exact ⟨h1, h2⟩
    · have hm : smoothScrollMenuClose s b = s := by
        simp [smoothScrollMenuClose, hh']
      rw [hm]
      exact ⟨h1, h2⟩

/-- Concrete instance of claim C8: all three operations applied to the
closed configuration yield consistent states. -/
theorem menu_ops_preserve_invariant_inst :
    MenuConsistent (toggleMenu closedMenuState) ∧
    MenuConsistent (menuLinkClick closedMenuState) ∧
    MenuConsistent (smoothScrollMenuClose closedMenuState true) :=
  menu_ops_preserve_invariant closedMenuState true (by unfold MenuConsistent; decide)

/-- Claim C9: from every state the mobile menu assumes on the page (the
open or the closed configuration), activating the toggle button twice
returns the aria-expanded flag, the hidden class and the icon glyph to
their original values. -/
theorem toggle_twice_id (s : MenuState) (h : MenuWellFormed s) :
    toggleMenu (toggleMenu s) = s := by
  rcases h with rfl | rfl <;> decide

/-- Concrete instance of claim C9: the closed configuration round-trips. -/
theorem toggle_twice_id_inst :
    toggleMenu (toggleMenu closedMenuState) = closedMenuState :=
  toggle_twice_id closedMenuState (Or.inr rfl)

/-! ## Fade-in observer -/

theorem runFade_visible_fix (events : List Bool) :
    runFade events { isVisible := true, observed := false }
      = { isVisible := true, observed := false } := by
  induction events with
  | nil => rfl
  | cons b evs ih =>
      cases b with
      | false => exact ih
      | true => exact ih

/-- Claim C10: starting from the initial observed state, the first
intersecting entry adds the visible class and unobserves the section, and
the state never changes afterwards, so a run containing any intersection
ends visible and unobserved and a run containing none stays initial;
moreover from any already-visible state the class is never removed. -/
theorem fade_in_one_shot (events : List Bool) (s : FadeState)
    (h : s.isVisible = true) :
    (runFade events fadeInitial =
      if events.contains true then { isVisible := true, observed := false }
      else fadeInitial) ∧
    (runFade events s).isVisible = true := by
  constructor
  · induction events with
    | nil => rfl
    | cons b evs ih =>
        cases b with
        | false =>
            have hc : (false :: evs).contains true = evs.contains true := by
              simp [List.contains_cons]
            rw [hc]
            exact ih
        | true =>
            have hc : (true :: evs).contains true = true := by
              simp [List.contains_cons]
            rw [hc]
            have hrun : runFade (true :: evs) fadeInitial
                = runFade evs { isVisible := true, observed := false } := rfl
            rw [hrun, runFade_visible_fix]
            simp
  · induction events generalizing s with
    | nil => exact h
    | cons b evs ih =>
        cases b with
        | false => exact ih s h
        | true =>
            have hrun : runFade (true :: evs) s
                = runFade evs { isVisible := true, observed := false } := rfl
            rw [hrun, runFade_visible_fix]

/-- Concrete instance of claim C10: a run with one intersection ends
visible and unobserved, and an already-visible section stays visible. -/
theorem fade_in_one_shot_inst :
    (runFade [true, false] fadeInitial =
      if ([true, false]).contains true then { isVisible := true, observed := false }
      else fadeInitial) ∧
    (runFade [true, false] { isVisible := true, observed := false }).isVisible = true :=
  fade_in_one_shot [true, false] { isVisible := true, observed := false } rfl

/-! ## Scroll-highlight computation -/

theorem foldl_pick_last (Q : SectionInfo → Prop) [DecidablePred Q]
    (sections : List SectionInfo) (init : String) :
    sections.foldl (fun acc s => if Q s then s.id else acc) init =
      (((sections.filter (fun s => decide (Q s))).getLast?).map SectionInfo.id).getD init := by
  induction sections using List.reverseRecOn with
  | nil => rfl
  | append_singleton l x ih =>
      rw [List.foldl_append, List.filter_append]
      by_cases hx : Q x
      · simp [hx]
      · simp [hx, ih]

theorem computeCurrentId_of_last (navH : Int) (sections : List SectionInfo)
    (scrollPos : Int) (hids : ∀ s ∈ sections, s.id ≠ "") (last : SectionInfo)
    (hlast : lastQualifying navH sections scrollPos = some last) :
    computeCurrentId navH sections scrollPos = last.id := by
  unfold lastQualifying at hlast
  have hne : last.id ≠ "" := by
    refine hids last ?_
    exact List.mem_of_mem_filter (List.mem_of_mem_getLast? hlast)
  cases sections with
  | nil => simp at hlast
  | cons s0 rest =>
      unfold computeCurrentId
      rw [foldl_pick_last (fun s => scrollPos ≥ sectionThreshold navH s)]
      rw [hlast]
      dsimp only
      rw [if_neg]
      · rfl
      · rintro ⟨hc, _⟩
        exact hne hc

theorem computeCurrentId_fallback (navH : Int) (sections : List SectionInfo)
    (scrollPos : Int)
    (hnone : lastQualifying navH sections scrollPos = none)
    (s0 : SectionInfo) (hhead : sections.head? = some s0) (hid : s0.id = "inicio")
    (hscroll : scrollPos < s0.offsetTop) :
    computeCurrentId navH sections scrollPos = "inicio" := by
  unfold lastQualifying at hnone
  cases sections with
  | nil => simp at hhead
  | cons t rest =>
      have ht : t = s0 := by
        simpa using hhead
      subst ht
      unfold computeCurrentId
      rw [foldl_pick_last (fun s => scrollPos ≥ sectionThreshold navH s)]
      rw [hnone]
      dsimp only
      rw [if_pos]
      exact ⟨rfl, hid, hscroll⟩

theorem setActive_mem_iff (cid : String) (links : List NavLink) :
    ∀ l ∈ links.map (setActive cid), (l.active = true ↔ l.href = "#" ++ cid) := by
  intro l hl
  rcases List.mem_map.mp hl with ⟨l0, _, rfl⟩
  simp [setActive]

/-- Claim C7: each run of the scroll-highlight evaluation marks as active
exactly the desktop and mobile links whose href is the hash of the id of
the last section in document order whose adjusted top offset (offsetTop
minus navbar height minus 60) the scroll position has reached, and
deactivates all others; when no section qualifies, the first section has
the home id and the scroll position is above its unadjusted top, the home
id is marked current instead (section ids are assumed nonempty, as they
are attribute-selected anchor targets). -/
theorem updateActiveState_current_section (navH : Int) (sections : List SectionInfo)
    (scrollPos : Int) (desktopLinks mobileLinks : List NavLink)
    (hids : ∀ s ∈ sections, s.id ≠ "") :
    (∀ last, lastQualifying navH sections scrollPos = some last →
      (∀ l ∈ (updateActiveState navH sections scrollPos desktopLinks mobileLinks).1,
          l.active = true ↔ l.href = "#" ++ last.id) ∧
      (∀ l ∈ (updateActiveState navH sections scrollPos desktopLinks mobileLinks).2,
          l.active = true ↔ l.href = "#" ++ last.id)) ∧
    (lastQualifying navH sections scrollPos = none →
      ∀ s0, sections.head? = some s0 → s0.id = "inicio" → scrollPos < s0.offsetTop →
        (∀ l ∈ (updateActiveState navH sections scrollPos desktopLinks mobileLinks).1,
            l.active = true ↔ l.href = "#" ++ "inicio") ∧
        (∀ l ∈ (updateActiveState navH sections scrollPos desktopLinks mobileLinks).2,
            l.active = true ↔ l.href = "#" ++ "inicio")) := by
  have hd : (updateActiveState navH sections scrollPos desktopLinks mobileLinks).1
      = desktopLinks.map (setActive (computeCurrentId navH sections scrollPos)) := rfl
  have hm : (updateActiveState navH sections scrollPos desktopLinks mobileLinks).2
      = mobileLinks.map (setActive (computeCurrentId navH sections scrollPos)) := rfl
  constructor
  · intro last hlast
    have hcid := computeCurrentId_of_last navH sections scrollPos hids last hlast
    rw [hd, hm, hcid]
    exact ⟨setActive_mem_iff last.id desktopLinks, setActive_mem_iff last.id mobileLinks⟩
  · intro hnone s0 hhead hid hscroll
    have hcid := computeCurrentId_fallback navH sections scrollPos hnone s0 hhead hid hscroll
    rw [hd, hm, hcid]
    exact ⟨setActive_mem_iff "inicio" desktopLinks, setActive_mem_iff "inicio" mobileLinks⟩

/-- Concrete instance of claim C7: with the sample sections and a scroll
position past the second section, the link to the second section is the
active one in the rewritten list. -/
theorem updateActiveState_current_section_inst :
    ((NavLink.mk "#servicios" true).active = true ↔
      (NavLink.mk "#servicios" true).href = "#" ++ (SectionInfo.mk "servicios" 500).id) :=
  (((updateActiveState_current_section 40 sampleSections 600 sampleLinks sampleLinks
      (by decide)).1 (SectionInfo.mk "servicios" 500) (by decide)).1
    (NavLink.mk "#servicios" true) (by decide))

end SegurosMain
